import Mathlib

/-!
Formal model of the unified document ingestion and storage service of the
kluisz-flow repository: the `LocalFileStorageService` / `FileStorageService`
classes (fileStorageService.ts) and the file-upload HTTP handlers
(registerRoutes).  Filesystem paths are modelled as normalized segment
lists, byte buffers as lists of byte values, and the event-driven request
stream as an ordered list of chunks folded through the handler's data
listener.  External collaborators (the object-storage provider) are not
part of the repository; their observable outcomes are passed to the
modelled functions as explicit arguments.
-/

namespace FileStorage

/-! ## JavaScript string primitives

Char-level structural implementations of the JavaScript string operations
the service uses (`split` with a one-character separator, `toLowerCase`,
`startsWith`, first-occurrence `replace`), so that every definition
evaluates by kernel reduction. -/

/-- JavaScript `String.prototype.split` with a one-character separator:
split at every occurrence, keeping empty pieces. -/
def jsSplitChars (sep : Char) : List Char → List (List Char)
  | [] => [[]]
  | c :: rest =>
      match jsSplitChars sep rest with
      | [] => [[c]]
      | piece :: more =>
          if c = sep then [] :: piece :: more
          else (c :: piece) :: more

/-- `split` on strings. -/
def jsSplit (sep : Char) (s : String) : List String :=
  (jsSplitChars sep s.data).map (fun cs => String.mk cs)

/-- JavaScript `String.prototype.toLowerCase` (ASCII range, which is all
the service compares). -/
def jsToLower (s : String) : String :=
  String.mk (s.data.map Char.toLower)

/-- JavaScript `String.prototype.startsWith`. -/
def jsStartsWith (s pat : String) : Bool :=
  pat.data.isPrefixOf s.data

/-- JavaScript `String.prototype.replace` with a string pattern: replace
only the first occurrence of `pat` by `rep`. -/
def replaceFirstChars (pat rep : List Char) : List Char → List Char
  | [] => []
  | c :: rest =>
      if pat.isPrefixOf (c :: rest) then rep ++ (c :: rest).drop pat.length
      else c :: replaceFirstChars pat rep rest

/-- `replace` (first occurrence) on strings. -/
def replaceFirst (s pat rep : String) : String :=
  String.mk (replaceFirstChars pat.data rep.data s.data)

/-! ## POSIX path model (Node `path.join` on an absolute base) -/

/-- Split a path string on `/`, dropping empty segments. -/
def splitPathSegs (s : String) : List String :=
  (jsSplit '/' s).filter (fun seg => seg ≠ "")

/-- Normalization of an absolute path given as segments: `.` is dropped and
`..` removes the previous segment (at the root it is a no-op), exactly as
Node's `path.join`/`normalize` resolves an absolute POSIX path. -/
def normalizeSegs (segs : List String) : List String :=
  segs.foldl (fun acc seg =>
    if seg = "." then acc
    else if seg = ".." then acc.dropLast
    else acc ++ [seg]) []

/-- `isWithin root p` holds when the normalized path `p` lies inside the
directory `root` (root's segments are an initial run of `p`'s). -/
def isWithin (root p : List String) : Bool :=
  p.take root.length == root

/-- Render segments back into an absolute path string. -/
def segsToString (segs : List String) : String :=
  segs.foldl (fun acc seg => acc ++ "/" ++ seg) ""

/-! ## Data model (`UploadedFileInfo` and service state) -/

/-- `UploadedFileInfo` record of fileStorageService.ts.  `uploadedAt` is an
epoch timestamp (`Date`), `size` a byte count. -/
structure UploadedFileInfo where
  id : String
  name : String
  size : Nat
  path : String
  uploadedAt : Nat
  mimeType : Option String
deriving DecidableEq, Repr

/-- State owned by `LocalFileStorageService`: the upload directory (as
normalized absolute segments), the metadata ledger (metadata.json, loaded
as a record list) and the files on disk (path segments paired with byte
contents). -/
structure StorageState where
  uploadDirSegs : List String
  metadata : List UploadedFileInfo
  fs : List (List String × List Nat)
deriving DecidableEq, Repr

/-- `writeFileSync`: create or overwrite the file at `p`. -/
def writeFs (fs : List (List String × List Nat)) (p : List String) (buf : List Nat) :
    List (List String × List Nat) :=
  if fs.any (fun e => e.1 == p) then
    fs.map (fun e => if e.1 == p then (p, buf) else e)
  else fs ++ [(p, buf)]

/-- `existsSync` + `readFileSync`: the contents of the file at `p`, if any. -/
def lookupFs (fs : List (List String × List Nat)) (p : List String) : Option (List Nat) :=
  (fs.find? (fun e => e.1 == p)).map (fun e => e.2)

/-! ## LocalFileStorageService -/

/-- `LocalFileStorageService.getMetadata`: read the ledger. -/
def getMetadata (st : StorageState) : List UploadedFileInfo :=
  st.metadata

/-- `LocalFileStorageService.generateUploadURL` for a fresh `fileId`
(`randomUUID()` passed in explicitly). -/
def localGenerateUploadURL (freshFileId : String) : String :=
  "http://localhost:3001/api/files/local-upload/" ++ freshFileId

/-- The path `LocalFileStorageService.saveUploadedFile` writes to:
`join(this.uploadDir, fileId + "-" + fileName)`.  The client-supplied
`fileName` is concatenated in unchanged. -/
def saveFilePathSegs (uploadDirSegs : List String) (fileId fileName : String) : List String :=
  normalizeSegs (uploadDirSegs ++ splitPathSegs (fileId ++ "-" ++ fileName))

/-- `LocalFileStorageService.saveUploadedFile`: write the buffer to
`<uploadDir>/<fileId>-<fileName>`, build the `UploadedFileInfo`
(`size: buffer.length`), push it onto the ledger, and return it. -/
def saveUploadedFile (st : StorageState) (fileId : String) (buffer : List Nat)
    (fileName : String) (mimeType : Option String) (now : Nat) :
    UploadedFileInfo × StorageState :=
  let filePathSegs := saveFilePathSegs st.uploadDirSegs fileId fileName
  let fileInfo : UploadedFileInfo :=
    { id := fileId
      name := fileName
      size := buffer.length
      path := "/uploads/" ++ fileId ++ "-" ++ fileName
      uploadedAt := now
      mimeType := mimeType }
  (fileInfo,
   { st with
       fs := writeFs st.fs filePathSegs buffer
       metadata := getMetadata st ++ [fileInfo] })

/-- `LocalFileStorageService.getAllFiles` (and
`FileStorageService.getAllFiles`, which delegates to it): return the
ledger's contents as stored. -/
def getAllFiles (st : StorageState) : List UploadedFileInfo :=
  getMetadata st

/-- `LocalFileStorageService.getMimeType`: extension of the lowercased
path, looked up in the static table, defaulting to a generic octet type. -/
def getMimeType (filePath : String) : String :=
  let ext := (jsSplit '.' (jsToLower filePath)).getLastD ""
  if ext = "pdf" then "application/pdf"
  else if ext = "docx" then
    "application/vnd.openxmlformats-officedocument.wordprocessingml.document"
  else if ext = "doc" then "application/msword"
  else if ext = "txt" then "text/plain"
  else "application/octet-stream"

/-- `LocalFileStorageService.serveFile`: strip the first `/uploads/` from
the locator, join with the upload directory, and return contents and mime
type when the file exists.  No containment check is performed. -/
def serveFileLocal (st : StorageState) (filePath : String) : Option (List Nat × String) :=
  let fullSegs := normalizeSegs
    (st.uploadDirSegs ++ splitPathSegs (replaceFirst filePath "/uploads/" ""))
  match lookupFs st.fs fullSegs with
  | some buffer => some (buffer, getMimeType (segsToString fullSegs))
  | none => none

/-- The normalized path `LocalFileStorageService.serveFile` resolves a
locator to. -/
def serveResolvedSegs (st : StorageState) (filePath : String) : List String :=
  normalizeSegs (st.uploadDirSegs ++ splitPathSegs (replaceFirst filePath "/uploads/" ""))

/-- `FileStorageService.serveFile`: route locators with the `/uploads/`
path prefix to the local backend; anything else is not found. -/
def serveFile (st : StorageState) (filePath : String) : Option (List Nat × String) :=
  if jsStartsWith filePath "/uploads/" then serveFileLocal st filePath
  else none

/-! ## FileStorageService (the storage router) -/

/-- Outcome of the external `objectStorage.trySetObjectEntityAclPolicy`
call (the ObjectStorageService is an external collaborator whose code is
not part of this service; its observable result is an argument). -/
inductive AclOutcome where
  | ok (objectPath : String)
  | thrown (msg : String)
deriving DecidableEq, Repr

/-- `FileStorageService.generateUploadURL`.  `objectStorageConfigured`
models `this.objectStorage` being non-null; `remote` is the outcome of the
external `getObjectEntityUploadURL` call; `freshFileId` is the
`randomUUID()` the local backend would use. -/
def generateUploadURL (objectStorageConfigured : Bool)
    (remote : Except String String) (freshFileId : String) : String × Bool :=
  if objectStorageConfigured then
    match remote with
    | Except.ok uploadURL => (uploadURL, true)
    | Except.error _ => (localGenerateUploadURL freshFileId, false)
  else (localGenerateUploadURL freshFileId, false)

/-- `FileStorageService.extractObjectKeyFromUrl`: the last `/`-separated
part of the URL, or null when it is empty. -/
def extractObjectKeyFromUrl (url : String) : Option String :=
  let urlParts := jsSplit '/' url
  let last := urlParts.getLastD ""
  if last = "" then none else some last

/-- `FileStorageService.detectMimeTypeFromFileName`: switch on the
lowercased extension. -/
def detectMimeTypeFromFileName (fileName : String) : String :=
  let extension := jsToLower ((jsSplit '.' fileName).getLastD "")
  if extension = "pdf" then "application/pdf"
  else if extension = "doc" then "application/msword"
  else if extension = "docx" then
    "application/vnd.openxmlformats-officedocument.wordprocessingml.document"
  else if extension = "txt" then "text/plain"
  else "application/octet-stream"

/-- `FileStorageService.completeUpload`.  When object storage is in use
and configured, the ACL call runs; on success the record id is the object
key extracted from the upload URL (falling back to a fresh `randomUUID()`
when extraction yields null); the thrown ACL error is re-thrown.  Any
other combination throws the local-storage completion error. -/
def completeUpload (objectStorageConfigured : Bool) (acl : AclOutcome)
    (freshUuid : String) (now : Nat) (fileUrl fileName : String)
    (fileSize : Nat) (useObjectStorage : Bool) : Except String UploadedFileInfo :=
  if useObjectStorage && objectStorageConfigured then
    match acl with
    | AclOutcome.ok objectPath =>
        let objectKey := extractObjectKeyFromUrl fileUrl
        let fileId := match objectKey with
          | some k => k
          | none => freshUuid
        Except.ok
          { id := fileId
            name := fileName
            size := fileSize
            path := objectPath
            uploadedAt := now
            mimeType := some (detectMimeTypeFromFileName fileName) }
    | AclOutcome.thrown msg => Except.error msg
  else
    Except.error "Invalid upload completion for local storage"

/-- `FileStorageService.saveLocalFile` delegates to
`LocalFileStorageService.saveUploadedFile`. -/
def saveLocalFile (st : StorageState) (fileId : String) (buffer : List Nat)
    (fileName : String) (mimeType : Option String) (now : Nat) :
    UploadedFileInfo × StorageState :=
  saveUploadedFile st fileId buffer fileName mimeType now

/-- The ledger merge of `FileStorageService.persistObjectStorageMetadata`:
`findIndex` an entry with the same id; replace it in place when found,
push otherwise. -/
def upsertById (l : List UploadedFileInfo) (fileInfo : UploadedFileInfo) :
    List UploadedFileInfo :=
  match l.findIdx? (fun f => f.id == fileInfo.id) with
  | some i => l.set i fileInfo
  | none => l ++ [fileInfo]

/-- `FileStorageService.persistObjectStorageMetadata`: read the ledger,
merge the record by id, save the ledger. -/
def persistObjectStorageMetadata (st : StorageState) (fileInfo : UploadedFileInfo) :
    StorageState :=
  { st with metadata := upsertById (getMetadata st) fileInfo }

/-! ## HTTP handlers (registerRoutes) -/

/-- The request headers the local-upload handler reads.  `contentType` is
the `content-type` header; `xFileName` the `x-file-name` header;
`xFileSize` the numeric value of the `x-file-size` header (`parseInt` of a
decimal header; a missing header parses as 0, hence the `Option`). -/
structure UploadHeaders where
  contentType : Option String
  xFileName : Option String
  xFileSize : Option Nat
deriving DecidableEq, Repr

/-- The responses the local-upload handler can send. -/
inductive UploadResponse where
  | badRequest (msg : String)
  | payloadTooLarge (msg : String)
  | ok (fileInfo : UploadedFileInfo)
  | serverError (msg : String)
deriving DecidableEq, Repr

/-- `maxSize` of the local-upload handler: 50 MiB. -/
def maxSize : Nat := 50 * 1024 * 1024

/-- The `allowedTypes` list of the local-upload handler. -/
def allowedTypes : List String :=
  ["application/pdf", "application/msword",
   "application/vnd.openxmlformats-officedocument.wordprocessingml.document",
   "text/plain"]

/-- What the PUT local-upload handler does before it starts consuming the
request body: either an early rejection, or the values it proceeds with. -/
inductive PreCheck where
  | reject (resp : UploadResponse)
  | proceed (contentType fileName : String) (fileSize : Nat)
deriving DecidableEq, Repr

/-- The header validation phase of the PUT `/api/files/local-upload/:fileId`
handler, run before any `data` listener is registered: default the
headers, reject disallowed content types (400), reject a declared size
above `maxSize` (413). -/
def localUploadPreCheck (headers : UploadHeaders) (now : Nat) : PreCheck :=
  let contentType := headers.contentType.getD "application/octet-stream"
  let fileName := headers.xFileName.getD ("upload-" ++ toString now)
  let fileSize := headers.xFileSize.getD 0
  if (allowedTypes.contains contentType) = false then
    PreCheck.reject (UploadResponse.badRequest
      "Invalid file type. Only PDF, DOCX, DOC, and TXT files are allowed.")
  else if maxSize < fileSize then
    PreCheck.reject (UploadResponse.payloadTooLarge "File size exceeds 50MB limit")
  else
    PreCheck.proceed contentType fileName fileSize

/-- Accumulator of the handler's `data` listener: running byte total, the
collected chunks, and the `streamEnded` abort flag. -/
structure StreamAcc where
  totalSize : Nat
  chunks : List (List Nat)
  streamEnded : Bool
deriving DecidableEq, Repr

/-- One `data` event: ignore the chunk once the stream was aborted; add
its length to the running total; on overflow set `streamEnded` (the 413
was sent and all listeners removed) without keeping the chunk; otherwise
collect the chunk. -/
def processChunk (limit : Nat) (acc : StreamAcc) (chunk : List Nat) : StreamAcc :=
  if acc.streamEnded then acc
  else
    let total := acc.totalSize + chunk.length
    if limit < total then
      { totalSize := total, chunks := acc.chunks, streamEnded := true }
    else
      { totalSize := total, chunks := acc.chunks ++ [chunk], streamEnded := false }

/-- Initial accumulator of the `data` listener. -/
def initAcc : StreamAcc := { totalSize := 0, chunks := [], streamEnded := false }

/-- The PUT `/api/files/local-upload/:fileId` handler over a completed
request stream (`chunks` are the `data` events in order, followed by the
`end` event): run the pre-checks, fold the stream through the `data`
listener, and on a clean end concatenate the buffer, reject an empty body
(400), or persist via `saveLocalFile` and answer with the record. -/
def localUploadHandler (st : StorageState) (fileId : String)
    (headers : UploadHeaders) (chunks : List (List Nat)) (now : Nat) :
    UploadResponse × StorageState :=
  match localUploadPreCheck headers now with
  | PreCheck.reject resp => (resp, st)
  | PreCheck.proceed contentType fileName _ =>
      let acc := chunks.foldl (processChunk maxSize) initAcc
      if acc.streamEnded then
        (UploadResponse.payloadTooLarge "File size exceeds 50MB limit", st)
      else
        let buffer := acc.chunks.flatten
        if buffer.length = 0 then
          (UploadResponse.badRequest "No file data received", st)
        else
          let res := saveLocalFile st fileId buffer fileName (some contentType) now
          (UploadResponse.ok res.1, res.2)

/-- The POST `/api/files/complete-upload` handler: require a (truthy)
file URL and name (400), enforce the 50 MiB declared-size bound (413),
call `FileStorageService.completeUpload` (a thrown error is caught and
answered as 500), and persist the returned record to the ledger only for
object-storage uploads. -/
def completeUploadHandler (st : StorageState) (objectStorageConfigured : Bool)
    (acl : AclOutcome) (freshUuid : String) (now : Nat)
    (fileUrl fileName : Option String) (fileSize : Nat) (useObjectStorage : Bool) :
    UploadResponse × StorageState :=
  let u := fileUrl.getD ""
  let n := fileName.getD ""
  if u = "" || n = "" then
    (UploadResponse.badRequest "File URL and name are required", st)
  else if maxSize < fileSize then
    (UploadResponse.payloadTooLarge "File size exceeds 50MB limit", st)
  else
    match completeUpload objectStorageConfigured acl freshUuid now u n fileSize
        useObjectStorage with
    | Except.ok fileInfo =>
        if useObjectStorage then
          (UploadResponse.ok fileInfo, persistObjectStorageMetadata st fileInfo)
        else (UploadResponse.ok fileInfo, st)
    | Except.error _ =>
        (UploadResponse.serverError "Failed to complete file upload", st)

/-! ## Lemmas about the streaming `data` listener -/

lemma processChunk_of_ended (limit : Nat) (acc : StreamAcc) (c : List Nat)
    (h : acc.streamEnded = true) : processChunk limit acc c = acc := by
  simp [processChunk, h]

lemma foldl_processChunk_of_ended (limit : Nat) (l : List (List Nat)) (acc : StreamAcc)
    (h : acc.streamEnded = true) : l.foldl (processChunk limit) acc = acc := by
  induction l with
  | nil => rfl
  | cons c cs ih => rw [List.foldl_cons, processChunk_of_ended limit acc c h]; exact ih

/-- The `data` listener aborts the stream exactly when the total length of
the delivered chunks passes the limit. -/
lemma foldl_processChunk_ended_iff (limit : Nat) :
    ∀ (l : List (List Nat)) (acc : StreamAcc), acc.streamEnded = false →
      acc.totalSize ≤ limit →
      ((l.foldl (processChunk limit) acc).streamEnded = true
        ↔ limit < acc.totalSize + (l.map List.length).sum)
  | [], acc, h, hle => by
      simp [h]
      omega
  | c :: cs, acc, h, hle => by
      rw [List.foldl_cons]
      by_cases hov : limit < acc.totalSize + c.length
      · have hstep : processChunk limit acc c
            = { totalSize := acc.totalSize + c.length, chunks := acc.chunks,
                streamEnded := true } := by
          simp [processChunk, h, hov]
        rw [hstep, foldl_processChunk_of_ended limit cs _ rfl]
        simp only [List.map_cons, List.sum_cons]
        constructor
        · intro _; omega
        · intro _; trivial
      · have hstep : processChunk limit acc c
            = { totalSize := acc.totalSize + c.length, chunks := acc.chunks ++ [c],
                streamEnded := false } := by
          simp [processChunk, h, hov]
        rw [hstep]
        have := foldl_processChunk_ended_iff limit cs
          { totalSize := acc.totalSize + c.length, chunks := acc.chunks ++ [c],
            streamEnded := false } rfl (by dsimp only; omega)
        simp only [List.map_cons, List.sum_cons]
        dsimp only at this
        rw [this]
        omega

/-- When the stream is not aborted, every chunk was collected in order. -/
lemma foldl_processChunk_chunks_of_not_ended (limit : Nat) :
    ∀ (l : List (List Nat)) (acc : StreamAcc), acc.streamEnded = false →
      ((l.foldl (processChunk limit) acc).streamEnded = false) →
      (l.foldl (processChunk limit) acc).chunks = acc.chunks ++ l
  | [], acc, h, _ => by simp
  | c :: cs, acc, h, hend => by
      rw [List.foldl_cons] at hend ⊢
      by_cases hov : limit < acc.totalSize + c.length
      · have hstep : processChunk limit acc c
            = { totalSize := acc.totalSize + c.length, chunks := acc.chunks,
                streamEnded := true } := by
          simp [processChunk, h, hov]
        rw [hstep, foldl_processChunk_of_ended limit cs _ rfl] at hend
        simp at hend
      · have hstep : processChunk limit acc c
            = { totalSize := acc.totalSize + c.length, chunks := acc.chunks ++ [c],
                streamEnded := false } := by
          simp [processChunk, h, hov]
        rw [hstep] at hend ⊢
        rw [foldl_processChunk_chunks_of_not_ended limit cs _ rfl hend]
        simp

/-! ## Claims about the local upload stream (C4, C5, C8) -/

/-- C4: for every successful local upload, the `size` field of the
`FileRecord` that is returned and written to the ledger equals the actual
number of bytes received (the length of the accumulated buffer), not the
client-declared size header. -/
theorem c4_recorded_size_is_received_bytes
    (st : StorageState) (fileId : String) (headers : UploadHeaders)
    (chunks : List (List Nat)) (now : Nat) (fi : UploadedFileInfo) (st' : StorageState)
    (h : localUploadHandler st fileId headers chunks now = (UploadResponse.ok fi, st')) :
    fi.size = (chunks.map List.length).sum
    ∧ getMetadata st' = getMetadata st ++ [fi] := by
  unfold localUploadHandler localUploadPreCheck at h
  by_cases hct :
      (allowedTypes.contains (headers.contentType.getD "application/octet-stream")) = false
  · simp only [hct, if_true, reduceIte] at h
    simp at h
  · simp only [hct, reduceIte] at h
    by_cases hfs : maxSize < headers.xFileSize.getD 0
    · simp only [hfs, reduceIte] at h
      simp at h
    · simp only [hfs, reduceIte] at h
      by_cases hend : (chunks.foldl (processChunk maxSize) initAcc).streamEnded
      · simp only [hend, reduceIte] at h
        simp at h
      · simp only [hend, reduceIte] at h
        have hchunks : (chunks.foldl (processChunk maxSize) initAcc).chunks = chunks := by
          have := foldl_processChunk_chunks_of_not_ended maxSize chunks initAcc rfl
            (by simpa using hend)
          simpa [initAcc] using this
        by_cases hz : ((chunks.foldl (processChunk maxSize) initAcc).chunks.flatten).length = 0
        · simp only [hz, reduceIte] at h
          simp at h
        · simp only [hz, reduceIte] at h
          simp only [saveLocalFile, saveUploadedFile, Prod.mk.injEq,
            UploadResponse.ok.injEq] at h
          obtain ⟨hfi, hst⟩ := h
          refine ⟨?_, ?_⟩
          · show (List.foldl (processChunk maxSize) initAcc chunks).chunks.flatten.length
              = (chunks.map List.length).sum
            rw [hchunks, List.length_flatten]
          · rfl

/-- Witness for C4: a concrete upload declaring 10 bytes but sending 3
(chunks `[1,2]` and `[3]`) records size 3 and appends exactly that record
to the ledger. -/
theorem c4_recorded_size_is_received_bytes_witness :
    ({ id := "f1", name := "notes.txt", size := 3, path := "/uploads/f1-notes.txt",
       uploadedAt := 7, mimeType := some "text/plain" } : UploadedFileInfo).size
        = (([[1, 2], [3]] : List (List Nat)).map List.length).sum
    ∧ getMetadata
        (localUploadHandler ⟨["root", "uploads"], [], []⟩ "f1"
          ⟨some "text/plain", some "notes.txt", some 10⟩ [[1, 2], [3]] 7).2
        = getMetadata (⟨["root", "uploads"], [], []⟩ : StorageState)
          ++ [{ id := "f1", name := "notes.txt", size := 3, path := "/uploads/f1-notes.txt",
                uploadedAt := 7, mimeType := some "text/plain" }] :=
  c4_recorded_size_is_received_bytes ⟨["root", "uploads"], [], []⟩ "f1"
    ⟨some "text/plain", some "notes.txt", some 10⟩ [[1, 2], [3]] 7
    { id := "f1", name := "notes.txt", size := 3, path := "/uploads/f1-notes.txt",
      uploadedAt := 7, mimeType := some "text/plain" }
    (localUploadHandler ⟨["root", "uploads"], [], []⟩ "f1"
      ⟨some "text/plain", some "notes.txt", some 10⟩ [[1, 2], [3]] 7).2
    (by rfl)

/-- C5: for every local upload whose cumulative received byte count
exceeds the 50 MiB limit at any point during streaming (equivalently, a
limit-exceeding total, since the running total is monotone), the handler
aborts with 413 PayloadTooLarge and leaves the service state — in
particular the ledger — unchanged, so no `FileRecord` is created. -/
theorem c5_oversized_stream_aborts_without_record
    (st : StorageState) (fileId : String) (headers : UploadHeaders)
    (chunks : List (List Nat)) (now : Nat)
    (hct : (allowedTypes.contains (headers.contentType.getD "application/octet-stream"))
      = true)
    (hover : maxSize < (chunks.map List.length).sum) :
    localUploadHandler st fileId headers chunks now
      = (UploadResponse.payloadTooLarge "File size exceeds 50MB limit", st) := by
  have hend : (chunks.foldl (processChunk maxSize) initAcc).streamEnded = true := by
    rw [foldl_processChunk_ended_iff maxSize chunks initAcc rfl (by simp [initAcc])]
    simpa [initAcc] using hover
  unfold localUploadHandler localUploadPreCheck
  simp only [hct]
  by_cases hfs : maxSize < headers.xFileSize.getD 0
  · simp [hfs]
  · simp [hfs, hend]

/-- Witness for C5: a single 50 MiB + 1 byte chunk of a declared-size-10
text upload is aborted with 413 and the ledger stays empty. -/
theorem c5_oversized_stream_aborts_without_record_witness :
    localUploadHandler ⟨["root", "uploads"], [], []⟩ "f1"
      ⟨some "text/plain", some "big.txt", some 10⟩ [List.replicate (maxSize + 1) 0] 7
      = (UploadResponse.payloadTooLarge "File size exceeds 50MB limit",
         ⟨["root", "uploads"], [], []⟩) :=
  c5_oversized_stream_aborts_without_record ⟨["root", "uploads"], [], []⟩ "f1"
    ⟨some "text/plain", some "big.txt", some 10⟩ [List.replicate (maxSize + 1) 0] 7
    (by rfl) (by simp)

/-- C8 counterexample: a request with a disallowed content type
(`image/png`) and a declared size of 60 MiB (> 50 MiB) is answered with
400 Invalid-file-type, not 413 PayloadTooLarge: the content-type check
runs first, so not every oversize-declaring request gets 413. -/
theorem c8_oversize_declared_counterexample :
    maxSize < 60 * 1024 * 1024
    ∧ localUploadHandler ⟨["root", "uploads"], [], []⟩ "f1"
        ⟨some "image/png", some "big.bin", some (60 * 1024 * 1024)⟩ [] 0
        = (UploadResponse.badRequest
            "Invalid file type. Only PDF, DOCX, DOC, and TXT files are allowed.",
           ⟨["root", "uploads"], [], []⟩) :=
  ⟨by norm_num [maxSize], by rfl⟩

/-- C8 (amended): for every local upload request with an allowed content
type whose declared size header exceeds the 50 MiB limit, the handler
rejects with 413 PayloadTooLarge during the pre-body checks — before any
`data` listener is registered — so the response and state are the same
whatever the body stream holds, and the state is unchanged. -/
theorem c8_allowed_type_oversize_fails_fast
    (st : StorageState) (fileId : String) (headers : UploadHeaders)
    (chunks : List (List Nat)) (now : Nat)
    (hct : (allowedTypes.contains (headers.contentType.getD "application/octet-stream"))
      = true)
    (hfs : maxSize < headers.xFileSize.getD 0) :
    localUploadPreCheck headers now
      = PreCheck.reject (UploadResponse.payloadTooLarge "File size exceeds 50MB limit")
    ∧ localUploadHandler st fileId headers chunks now
      = (UploadResponse.payloadTooLarge "File size exceeds 50MB limit", st) := by
  have hpre : localUploadPreCheck headers now
      = PreCheck.reject (UploadResponse.payloadTooLarge "File size exceeds 50MB limit") := by
    simp only [localUploadPreCheck]
    rw [if_neg (by rw [hct]; simp), if_pos hfs]
  exact ⟨hpre, by unfold localUploadHandler; rw [hpre]⟩

/-- Witness for C8 (amended): a `text/plain` request declaring 60 MiB is
rejected with 413 in the pre-check, and the handler ignores its one-byte
body stream and leaves the state unchanged. -/
theorem c8_allowed_type_oversize_fails_fast_witness :
    localUploadPreCheck ⟨some "text/plain", some "big.txt", some (60 * 1024 * 1024)⟩ 0
      = PreCheck.reject (UploadResponse.payloadTooLarge "File size exceeds 50MB limit")
    ∧ localUploadHandler ⟨["root", "uploads"], [], []⟩ "f1"
        ⟨some "text/plain", some "big.txt", some (60 * 1024 * 1024)⟩ [[1]] 0
        = (UploadResponse.payloadTooLarge "File size exceeds 50MB limit",
           ⟨["root", "uploads"], [], []⟩) :=
  c8_allowed_type_oversize_fails_fast ⟨["root", "uploads"], [], []⟩ "f1"
    ⟨some "text/plain", some "big.txt", some (60 * 1024 * 1024)⟩ [[1]] 0
    (by rfl) (by norm_num [maxSize])

/-! ## Lemmas about the ledger merge (`upsertById`) -/

/-- Recursive restatement of the findIndex-then-set-or-push merge:
replace the first record with the same id, else append. -/
def upsertSpec : List UploadedFileInfo → UploadedFileInfo → List UploadedFileInfo
  | [], fi => [fi]
  | f :: rest, fi =>
      if f.id == fi.id then fi :: rest else f :: upsertSpec rest fi

lemma upsertById_eq_spec (l : List UploadedFileInfo) (fi : UploadedFileInfo) :
    upsertById l fi = upsertSpec l fi := by
  induction l with
  | nil => rfl
  | cons f rest ih =>
    rw [upsertById, upsertSpec, List.findIdx?_cons]
    by_cases h : (f.id == fi.id) = true
    · simp [h]
    · rw [if_neg (by simpa using h), if_neg (by simpa using h)]
      rw [upsertById] at ih
      rw [List.findIdx?_succ]
      cases hr : rest.findIdx? (fun g => g.id == fi.id) with
      | some i =>
          rw [hr] at ih
          dsimp only at ih
          simp only [Option.map_some']
          rw [List.set_cons_succ, ih]
      | none =>
          rw [hr] at ih
          dsimp only at ih
          simp only [Option.map_none']
          rw [List.cons_append, ih]

/-- The id projection of the ledger. -/
def idsOf (l : List UploadedFileInfo) : List String :=
  l.map (fun f => f.id)

lemma mem_idsOf_upsertSpec (l : List UploadedFileInfo) (fi : UploadedFileInfo)
    (x : String) (hx : x ∈ idsOf (upsertSpec l fi)) : x = fi.id ∨ x ∈ idsOf l := by
  induction l with
  | nil => simpa [upsertSpec, idsOf] using hx
  | cons f rest ih =>
    rw [upsertSpec] at hx
    by_cases h : (f.id == fi.id) = true
    · rw [if_pos h] at hx
      simp only [idsOf, List.map_cons, List.mem_cons] at hx ⊢
      tauto
    · rw [if_neg h] at hx
      simp only [idsOf, List.map_cons, List.mem_cons] at hx ⊢
      rcases hx with hx | hx
      · tauto
      · rcases ih hx with h1 | h1 <;> tauto

lemma idsOf_upsertSpec_nodup (l : List UploadedFileInfo) (fi : UploadedFileInfo)
    (h : (idsOf l).Nodup) : (idsOf (upsertSpec l fi)).Nodup := by
  induction l with
  | nil => simp [upsertSpec, idsOf]
  | cons f rest ih =>
    rw [upsertSpec]
    simp only [idsOf, List.map_cons, List.nodup_cons] at h
    by_cases hid : (f.id == fi.id) = true
    · rw [if_pos hid]
      simp only [idsOf, List.map_cons, List.nodup_cons]
      refine ⟨?_, h.2⟩
      have heq : f.id = fi.id := by simpa using hid
      rw [← heq]
      exact h.1
    · rw [if_neg hid]
      simp only [idsOf, List.map_cons, List.nodup_cons]
      refine ⟨?_, ih h.2⟩
      intro hmem
      have hne : ¬ f.id = fi.id := by simpa using hid
      rcases mem_idsOf_upsertSpec rest fi f.id hmem with h1 | h1
      · exact hne h1
      · exact h.1 h1

lemma countP_upsertSpec (l : List UploadedFileInfo) (fi : UploadedFileInfo)
    (h : (idsOf l).Nodup) :
    (upsertSpec l fi).countP (fun f => f.id == fi.id) = 1 := by
  induction l with
  | nil => simp [upsertSpec, List.countP_cons]
  | cons f rest ih =>
    rw [upsertSpec]
    simp only [idsOf, List.map_cons, List.nodup_cons] at h
    by_cases hid : (f.id == fi.id) = true
    · rw [if_pos hid]
      rw [List.countP_cons]
      have hzero : rest.countP (fun g => g.id == fi.id) = 0 := by
        rw [List.countP_eq_zero]
        intro g hg
        simp only [beq_iff_eq]
        intro hgid
        refine h.1 ?_
        have heq : f.id = fi.id := by simpa using hid
        rw [heq, ← hgid]
        exact List.mem_map_of_mem _ hg
      simp [hzero]
    · rw [if_neg hid]
      rw [List.countP_cons]
      simp only [hid]
      simpa using ih h.2

lemma upsertSpec_length_of_present (l : List UploadedFileInfo) (fi : UploadedFileInfo)
    (h : l.any (fun f => f.id == fi.id) = true) :
    (upsertSpec l fi).length = l.length := by
  induction l with
  | nil => simp at h
  | cons f rest ih =>
    rw [upsertSpec]
    by_cases hid : (f.id == fi.id) = true
    · rw [if_pos hid]; simp
    · rw [if_neg hid]
      simp only [List.any_cons, hid, Bool.false_or] at h
      simp [ih h]

lemma upsertSpec_length_of_absent (l : List UploadedFileInfo) (fi : UploadedFileInfo)
    (h : l.any (fun f => f.id == fi.id) = false) :
    (upsertSpec l fi).length = l.length + 1 := by
  induction l with
  | nil => simp [upsertSpec]
  | cons f rest ih =>
    rw [upsertSpec]
    simp only [List.any_cons, Bool.or_eq_false_iff] at h
    rw [if_neg (by simp [h.1])]
    simp [ih h.2]

lemma upsertSpec_of_absent (l : List UploadedFileInfo) (fi : UploadedFileInfo)
    (h : ∀ r ∈ l, r.id ≠ fi.id) : upsertSpec l fi = l ++ [fi] := by
  induction l with
  | nil => rfl
  | cons f rest ih =>
    rw [upsertSpec, if_neg (by simpa using h f (by simp))]
    rw [ih (fun r hr => h r (by simp [hr]))]
    simp

lemma idsOf_foldl_persist_nodup (completions : List UploadedFileInfo) :
    ∀ st : StorageState, (idsOf (getMetadata st)).Nodup →
      (idsOf (getMetadata (completions.foldl persistObjectStorageMetadata st))).Nodup := by
  induction completions with
  | nil => intro st h; exact h
  | cons fi rest ih =>
    intro st h
    rw [List.foldl_cons]
    refine ih _ ?_
    show (idsOf (upsertById (getMetadata st) fi)).Nodup
    rw [upsertById_eq_spec]
    exact idsOf_upsertSpec_nodup _ _ h

/-! ## Claims about the ledger merge and listing (C6, C9) -/

/-- C6: merging a remote completion into the ledger is idempotent on
ledger cardinality.  On a ledger with pairwise-distinct ids: any sequence
of completions keeps the ids pairwise distinct; after merging `fi` the
ledger holds exactly one record with `fi`'s id; and the merge replaces in
place (same length) when the id is present, appends (length + 1) when it
is not. -/
theorem c6_persist_idempotent_cardinality
    (st : StorageState) (fi : UploadedFileInfo) (completions : List UploadedFileInfo)
    (h : (idsOf (getMetadata st)).Nodup) :
    (idsOf (getMetadata (completions.foldl persistObjectStorageMetadata st))).Nodup
    ∧ (getMetadata (persistObjectStorageMetadata st fi)).countP
        (fun f => f.id == fi.id) = 1
    ∧ ((getMetadata st).any (fun f => f.id == fi.id) = true →
        (getMetadata (persistObjectStorageMetadata st fi)).length
          = (getMetadata st).length)
    ∧ ((getMetadata st).any (fun f => f.id == fi.id) = false →
        (getMetadata (persistObjectStorageMetadata st fi)).length
          = (getMetadata st).length + 1) := by
  refine ⟨idsOf_foldl_persist_nodup completions st h, ?_, ?_, ?_⟩
  · show (upsertById (getMetadata st) fi).countP (fun f => f.id == fi.id) = 1
    rw [upsertById_eq_spec]
    exact countP_upsertSpec _ _ h
  · intro hp
    show (upsertById (getMetadata st) fi).length = (getMetadata st).length
    rw [upsertById_eq_spec]
    exact upsertSpec_length_of_present _ _ hp
  · intro hp
    show (upsertById (getMetadata st) fi).length = (getMetadata st).length + 1
    rw [upsertById_eq_spec]
    exact upsertSpec_length_of_absent _ _ hp

/-- Witness for C6: on a two-record ledger, re-completing id "objA"
keeps ids distinct, yields exactly one "objA" record and an unchanged
length, while a fresh id appends. -/
theorem c6_persist_idempotent_cardinality_witness :
    (idsOf (getMetadata
        (([{ id := "objA", name := "a2.pdf", size := 7, path := "/objects/objA",
             uploadedAt := 3, mimeType := some "application/pdf" }]
          : List UploadedFileInfo).foldl persistObjectStorageMetadata
          ⟨["root", "uploads"],
           [{ id := "objA", name := "a.pdf", size := 5, path := "/objects/objA",
              uploadedAt := 1, mimeType := some "application/pdf" },
            { id := "objB", name := "b.pdf", size := 6, path := "/objects/objB",
              uploadedAt := 2, mimeType := some "application/pdf" }], []⟩))).Nodup
    ∧ (getMetadata (persistObjectStorageMetadata
        ⟨["root", "uploads"],
         [{ id := "objA", name := "a.pdf", size := 5, path := "/objects/objA",
            uploadedAt := 1, mimeType := some "application/pdf" },
          { id := "objB", name := "b.pdf", size := 6, path := "/objects/objB",
            uploadedAt := 2, mimeType := some "application/pdf" }], []⟩
        { id := "objA", name := "a2.pdf", size := 7, path := "/objects/objA",
          uploadedAt := 3, mimeType := some "application/pdf" })).countP
        (fun f => f.id == "objA") = 1
    ∧ ((getMetadata
        (⟨["root", "uploads"],
         [{ id := "objA", name := "a.pdf", size := 5, path := "/objects/objA",
            uploadedAt := 1, mimeType := some "application/pdf" },
          { id := "objB", name := "b.pdf", size := 6, path := "/objects/objB",
            uploadedAt := 2, mimeType := some "application/pdf" }], []⟩
          : StorageState)).any (fun f => f.id == "objA") = true →
        (getMetadata (persistObjectStorageMetadata
          ⟨["root", "uploads"],
           [{ id := "objA", name := "a.pdf", size := 5, path := "/objects/objA",
              uploadedAt := 1, mimeType := some "application/pdf" },
            { id := "objB", name := "b.pdf", size := 6, path := "/objects/objB",
              uploadedAt := 2, mimeType := some "application/pdf" }], []⟩
          { id := "objA", name := "a2.pdf", size := 7, path := "/objects/objA",
            uploadedAt := 3, mimeType := some "application/pdf" })).length = 2)
    ∧ ((getMetadata
        (⟨["root", "uploads"],
         [{ id := "objA", name := "a.pdf", size := 5, path := "/objects/objA",
            uploadedAt := 1, mimeType := some "application/pdf" },
          { id := "objB", name := "b.pdf", size := 6, path := "/objects/objB",
            uploadedAt := 2, mimeType := some "application/pdf" }], []⟩
          : StorageState)).any (fun f => f.id == "objA") = false →
        (getMetadata (persistObjectStorageMetadata
          ⟨["root", "uploads"],
           [{ id := "objA", name := "a.pdf", size := 5, path := "/objects/objA",
              uploadedAt := 1, mimeType := some "application/pdf" },
            { id := "objB", name := "b.pdf", size := 6, path := "/objects/objB",
              uploadedAt := 2, mimeType := some "application/pdf" }], []⟩
          { id := "objA", name := "a2.pdf", size := 7, path := "/objects/objA",
            uploadedAt := 3, mimeType := some "application/pdf" })).length = 2 + 1) :=
  c6_persist_idempotent_cardinality
    ⟨["root", "uploads"],
     [{ id := "objA", name := "a.pdf", size := 5, path := "/objects/objA",
        uploadedAt := 1, mimeType := some "application/pdf" },
      { id := "objB", name := "b.pdf", size := 6, path := "/objects/objB",
        uploadedAt := 2, mimeType := some "application/pdf" }], []⟩
    { id := "objA", name := "a2.pdf", size := 7, path := "/objects/objA",
      uploadedAt := 3, mimeType := some "application/pdf" }
    [{ id := "objA", name := "a2.pdf", size := 7, path := "/objects/objA",
       uploadedAt := 3, mimeType := some "application/pdf" }]
    (by decide)

/-- The spec's ordering requirement on `list()`: nondecreasing
`uploadedAt` along the returned list (stated from the spec's words, to
compare against the order `getAllFiles` actually returns). -/
def sortedByUploadedAt : List UploadedFileInfo → Bool
  | [] => true
  | [_] => true
  | a :: b :: rest =>
      decide (a.uploadedAt ≤ b.uploadedAt) && sortedByUploadedAt (b :: rest)

/-- C9 counterexample: complete "objA" at time 1, "objB" at time 2, then
re-complete "objA" at time 3.  The in-place merge leaves "objA" first, so
`getAllFiles` returns uploadedAt values 3, 2 — not ordered by upload
time. -/
theorem c9_list_not_sorted_counterexample :
    getAllFiles
        (persistObjectStorageMetadata
          (persistObjectStorageMetadata
            (persistObjectStorageMetadata ⟨["root", "uploads"], [], []⟩
              { id := "objA", name := "a.pdf", size := 5, path := "/objects/objA",
                uploadedAt := 1, mimeType := some "application/pdf" })
            { id := "objB", name := "b.pdf", size := 6, path := "/objects/objB",
              uploadedAt := 2, mimeType := some "application/pdf" })
          { id := "objA", name := "a.pdf", size := 7, path := "/objects/objA",
            uploadedAt := 3, mimeType := some "application/pdf" })
      = [{ id := "objA", name := "a.pdf", size := 7, path := "/objects/objA",
           uploadedAt := 3, mimeType := some "application/pdf" },
         { id := "objB", name := "b.pdf", size := 6, path := "/objects/objB",
           uploadedAt := 2, mimeType := some "application/pdf" }]
    ∧ sortedByUploadedAt
        (getAllFiles
          (persistObjectStorageMetadata
            (persistObjectStorageMetadata
              (persistObjectStorageMetadata ⟨["root", "uploads"], [], []⟩
                { id := "objA", name := "a.pdf", size := 5, path := "/objects/objA",
                  uploadedAt := 1, mimeType := some "application/pdf" })
              { id := "objB", name := "b.pdf", size := 6, path := "/objects/objB",
                uploadedAt := 2, mimeType := some "application/pdf" })
            { id := "objA", name := "a.pdf", size := 7, path := "/objects/objA",
              uploadedAt := 3, mimeType := some "application/pdf" })) = false := by
  refine ⟨by decide, by decide⟩

lemma sortedByUploadedAt_append_last (fi : UploadedFileInfo) :
    ∀ l : List UploadedFileInfo, sortedByUploadedAt l = true →
      (∀ r ∈ l, r.uploadedAt ≤ fi.uploadedAt) →
      sortedByUploadedAt (l ++ [fi]) = true
  | [], _, _ => rfl
  | [a], _, h2 => by
      simp only [List.cons_append, List.nil_append, sortedByUploadedAt,
        Bool.and_eq_true, decide_eq_true_eq]
      exact ⟨h2 a (by simp), trivial⟩
  | a :: b :: rest, h1, h2 => by
      simp only [sortedByUploadedAt, Bool.and_eq_true] at h1
      have htail := sortedByUploadedAt_append_last fi (b :: rest) h1.2
        (fun r hr => h2 r (List.mem_cons_of_mem a hr))
      simp only [List.cons_append] at htail ⊢
      rw [sortedByUploadedAt]
      rw [htail]
      simp [h1.1]

/-- C9 (amended): `getAllFiles` returns the ledger in stored (merge)
order: a completion with a fresh id and an `uploadedAt` no earlier than
every stored record appends at the end and keeps the listing ordered by
upload time; the counterexample shows an in-place update with a newer
timestamp breaks that order, so the listing is not re-sorted by
`uploadedAt`. -/
theorem c9_list_is_ledger_order
    (st : StorageState) (fi : UploadedFileInfo)
    (hsorted : sortedByUploadedAt (getAllFiles st) = true)
    (hfresh : ∀ r ∈ getMetadata st, r.id ≠ fi.id)
    (hlate : ∀ r ∈ getMetadata st, r.uploadedAt ≤ fi.uploadedAt) :
    getAllFiles (persistObjectStorageMetadata st fi) = getAllFiles st ++ [fi]
    ∧ sortedByUploadedAt (getAllFiles (persistObjectStorageMetadata st fi)) = true := by
  have happend : getAllFiles (persistObjectStorageMetadata st fi)
      = getAllFiles st ++ [fi] := by
    show upsertById (getMetadata st) fi = getMetadata st ++ [fi]
    rw [upsertById_eq_spec]
    exact upsertSpec_of_absent _ _ hfresh
  refine ⟨happend, ?_⟩
  rw [happend]
  exact sortedByUploadedAt_append_last fi (getAllFiles st) hsorted hlate

/-- Witness for C9 (amended): appending a fresh record with the latest
timestamp to a one-record ledger keeps `list()` in upload-time order. -/
theorem c9_list_is_ledger_order_witness :
    getAllFiles (persistObjectStorageMetadata
        ⟨["root", "uploads"],
         [{ id := "objA", name := "a.pdf", size := 5, path := "/objects/objA",
            uploadedAt := 1, mimeType := some "application/pdf" }], []⟩
        { id := "objB", name := "b.pdf", size := 6, path := "/objects/objB",
          uploadedAt := 2, mimeType := some "application/pdf" })
      = [{ id := "objA", name := "a.pdf", size := 5, path := "/objects/objA",
           uploadedAt := 1, mimeType := some "application/pdf" },
         { id := "objB", name := "b.pdf", size := 6, path := "/objects/objB",
           uploadedAt := 2, mimeType := some "application/pdf" }]
    ∧ sortedByUploadedAt (getAllFiles (persistObjectStorageMetadata
        ⟨["root", "uploads"],
         [{ id := "objA", name := "a.pdf", size := 5, path := "/objects/objA",
            uploadedAt := 1, mimeType := some "application/pdf" }], []⟩
        { id := "objB", name := "b.pdf", size := 6, path := "/objects/objB",
          uploadedAt := 2, mimeType := some "application/pdf" })) = true :=
  c9_list_is_ledger_order
    ⟨["root", "uploads"],
     [{ id := "objA", name := "a.pdf", size := 5, path := "/objects/objA",
        uploadedAt := 1, mimeType := some "application/pdf" }], []⟩
    { id := "objB", name := "b.pdf", size := 6, path := "/objects/objB",
      uploadedAt := 2, mimeType := some "application/pdf" }
    (by decide) (by decide) (by decide)

/-! ## Claims about path handling (C1, C2) -/

/-- C1 refutation: `saveUploadedFile` performs no sanitization of the
client-supplied filename.  With storage root `/home/user/app/uploads`,
fileId "abc" and filename "../../../etc/passwd", the written path
normalizes to `/home/user/app/etc/passwd` — outside the storage root (one
`..` is absorbed by the `abc-..` segment, the remaining two climb out of
`uploads`). -/
theorem c1_save_path_escapes_root :
    saveFilePathSegs ["home", "user", "app", "uploads"] "abc" "../../../etc/passwd"
      = ["home", "user", "app", "etc", "passwd"]
    ∧ isWithin ["home", "user", "app", "uploads"]
        (saveFilePathSegs ["home", "user", "app", "uploads"] "abc" "../../../etc/passwd")
      = false := by
  refine ⟨by decide, by decide⟩

/-- C2 refutation: `serveFile` applies no containment check.  The locator
"/uploads/../../secret/passwd.txt" passes the `/uploads/` path-prefix
routing test, resolves to `/home/user/secret/passwd.txt` — outside the
storage root — and its bytes are returned rather than NotFound when such
a file exists. -/
theorem c2_serve_escapes_root :
    serveResolvedSegs
        ⟨["home", "user", "app", "uploads"], [],
         [(["home", "user", "secret", "passwd.txt"], [1, 2, 3])]⟩
        "/uploads/../../secret/passwd.txt"
      = ["home", "user", "secret", "passwd.txt"]
    ∧ isWithin ["home", "user", "app", "uploads"]
        (serveResolvedSegs
          ⟨["home", "user", "app", "uploads"], [],
           [(["home", "user", "secret", "passwd.txt"], [1, 2, 3])]⟩
          "/uploads/../../secret/passwd.txt") = false
    ∧ serveFile
        ⟨["home", "user", "app", "uploads"], [],
         [(["home", "user", "secret", "passwd.txt"], [1, 2, 3])]⟩
        "/uploads/../../secret/passwd.txt"
      = some ([1, 2, 3], "text/plain") := by
  refine ⟨by decide, by decide, by decide⟩

/-! ## Claims about the router (C3, C7, C10) -/

/-- C3: two remote completions whose upload URLs carry the same
(nonempty) object key — the trailing path segment the service extracts —
produce records with identical ids, both equal to that key: the id
derivation is deterministic in the object key, so repeated completions of
the same object deduplicate to the same id. -/
theorem c3_same_object_key_same_id
    (cfg1 cfg2 : Bool) (acl1 acl2 : AclOutcome)
    (uuid1 uuid2 : String) (t1 t2 : Nat) (u1 u2 n1 n2 : String) (s1 s2 : Nat)
    (k : String) (r1 r2 : UploadedFileInfo)
    (hk1 : extractObjectKeyFromUrl u1 = some k)
    (hk2 : extractObjectKeyFromUrl u2 = some k)
    (h1 : completeUpload cfg1 acl1 uuid1 t1 u1 n1 s1 true = Except.ok r1)
    (h2 : completeUpload cfg2 acl2 uuid2 t2 u2 n2 s2 true = Except.ok r2) :
    r1.id = k ∧ r2.id = k := by
  constructor
  · cases cfg1 with
    | false => simp [completeUpload] at h1
    | true =>
      cases acl1 with
      | thrown m => simp [completeUpload] at h1
      | ok p =>
        simp only [completeUpload, Bool.and_self, reduceIte, hk1,
          Except.ok.injEq] at h1
        rw [← h1]
  · cases cfg2 with
    | false => simp [completeUpload] at h2
    | true =>
      cases acl2 with
      | thrown m => simp [completeUpload] at h2
      | ok p =>
        simp only [completeUpload, Bool.and_self, reduceIte, hk2,
          Except.ok.injEq] at h2
        rw [← h2]

/-- Witness for C3: completions of the same object key "objKey1" through
two different pre-signed hosts, different uuids, timestamps, names and
sizes both derive id "objKey1". -/
theorem c3_same_object_key_same_id_witness :
    ({ id := "objKey1", name := "a.pdf", size := 10, path := "/objects/p1",
       uploadedAt := 5, mimeType := some "application/pdf" } : UploadedFileInfo).id
      = "objKey1"
    ∧ ({ id := "objKey1", name := "b.txt", size := 20, path := "/objects/p2",
         uploadedAt := 9, mimeType := some "text/plain" } : UploadedFileInfo).id
      = "objKey1" :=
  c3_same_object_key_same_id true true (AclOutcome.ok "/objects/p1")
    (AclOutcome.ok "/objects/p2") "uuid-1" "uuid-2" 5 9
    "https://storage.example.com/bucket/objKey1"
    "https://mirror.example.net/files/objKey1" "a.pdf" "b.txt" 10 20 "objKey1"
    { id := "objKey1", name := "a.pdf", size := 10, path := "/objects/p1",
      uploadedAt := 5, mimeType := some "application/pdf" }
    { id := "objKey1", name := "b.txt", size := 20, path := "/objects/p2",
      uploadedAt := 9, mimeType := some "text/plain" }
    (by decide) (by decide) (by rfl) (by rfl)

/-- C7: whenever remote upload-target generation fails — object storage
unconfigured, or the provider call throws — `generateUploadURL` returns
the local upload URL with `useObjectStorage = false`; the provider
failure never surfaces as a failure of the request. -/
theorem c7_provider_failure_falls_back_locally
    (cfg : Bool) (remote : Except String String) (fid : String)
    (h : cfg = false ∨ ∃ e, remote = Except.error e) :
    generateUploadURL cfg remote fid = (localGenerateUploadURL fid, false) := by
  rcases h with h | ⟨e, h⟩
  · subst h; rfl
  · subst h
    cases cfg <;> rfl

/-- Witness for C7: with object storage configured but the provider
throwing, the caller still gets the local upload URL for its fresh id. -/
theorem c7_provider_failure_falls_back_locally_witness :
    generateUploadURL true (Except.error "provider down") "fid-1"
      = (localGenerateUploadURL "fid-1", false) :=
  c7_provider_failure_falls_back_locally true (Except.error "provider down") "fid-1"
    (Or.inr ⟨"provider down", rfl⟩)

/-- C10: `completeUpload` with `useObjectStorage = false`, or while
object storage is unconfigured, always throws the local-storage
completion error and never returns a record; correspondingly the
completion endpoint leaves the ledger state untouched in those cases, so
local uploads can only enter the ledger through `saveLocalFile`. -/
theorem c10_local_completion_always_throws
    (cfg : Bool) (acl : AclOutcome) (uuid : String) (now : Nat)
    (u n : String) (s : Nat) (uos : Bool) (st : StorageState)
    (fu fn : Option String) (s2 : Nat)
    (h : uos = false ∨ cfg = false) :
    completeUpload cfg acl uuid now u n s uos
      = Except.error "Invalid upload completion for local storage"
    ∧ (completeUploadHandler st cfg acl uuid now fu fn s2 uos).2 = st := by
  have hcond : (uos && cfg) = false := by
    rcases h with h | h <;> simp [h]
  have herr : ∀ (u' n' : String) (s' : Nat),
      completeUpload cfg acl uuid now u' n' s' uos
        = Except.error "Invalid upload completion for local storage" := by
    intro u' n' s'
    unfold completeUpload
    rw [hcond]
    simp
  refine ⟨herr u n s, ?_⟩
  rw [completeUploadHandler]
  split
  · rfl
  · split
    · rfl
    · rw [herr]

/-- Witness for C10: with object storage configured but
`useObjectStorage = false`, the completion throws and a one-record ledger
is unchanged by the endpoint. -/
theorem c10_local_completion_always_throws_witness :
    completeUpload true (AclOutcome.ok "/objects/k") "uuid-9" 4
        "http://localhost:3001/api/files/local-upload/f9" "f.txt" 5 false
      = Except.error "Invalid upload completion for local storage"
    ∧ (completeUploadHandler
        ⟨["root", "uploads"],
         [{ id := "f9", name := "f.txt", size := 5, path := "/uploads/f9-f.txt",
            uploadedAt := 1, mimeType := some "text/plain" }], []⟩
        true (AclOutcome.ok "/objects/k") "uuid-9" 4
        (some "http://localhost:3001/api/files/local-upload/f9") (some "f.txt") 5
        false).2
      = ⟨["root", "uploads"],
         [{ id := "f9", name := "f.txt", size := 5, path := "/uploads/f9-f.txt",
            uploadedAt := 1, mimeType := some "text/plain" }], []⟩ :=
  c10_local_completion_always_throws true (AclOutcome.ok "/objects/k") "uuid-9" 4
    "http://localhost:3001/api/files/local-upload/f9" "f.txt" 5 false
    ⟨["root", "uploads"],
     [{ id := "f9", name := "f.txt", size := 5, path := "/uploads/f9-f.txt",
        uploadedAt := 1, mimeType := some "text/plain" }], []⟩
    (some "http://localhost:3001/api/files/local-upload/f9") (some "f.txt") 5
    (Or.inl rfl)

end FileStorage
